import Mathlib

/-
Verification of the CEGAR pattern-collection generator
(src/search/pdbs/cegar.cc) against its specification.

The development shallowly embeds the class Cegar: states of the concrete
planning task are lists of natural numbers indexed by variable id, the
collection state mirrors the member variables of the class, and each
member function becomes a Lean function with explicit state passing.
Machine integers are modelled as Int; the only products the code computes
are guarded by an overflow-checked comparison, so no modular reduction is
needed. The external AbstractSolutionData constructor (the abstract
solver) is an opaque parameter threaded through the operations that
construct new entries.
-/

namespace Cegar

/-- Concrete planning operator: preconditions and effects, both lists of
(variable, value) facts, in the order the task stores them. -/
structure Operator where
  preconditions : List (Nat × Nat)
  effects : List (Nat × Nat)
deriving DecidableEq

/-- Read-only view of the planning task: number of variables, domain sizes,
goal facts, operators and the concrete initial state. -/
structure Task where
  numVars : Nat
  domains : List Nat
  goals : List (Nat × Nat)
  operators : List Operator
  initState : List Nat

/-- Value of a variable in a concrete state (states are lists indexed by
variable id). -/
def getVal (s : List Nat) (v : Nat) : Nat := s.getD v 0

/-- Applying an operator to a state sets every effect fact, mirroring
State.get_unregistered_successor. -/
def apply_op (s : List Nat) (op : Operator) : List Nat :=
  op.effects.foldl (fun t e => t.set e.1 e.2) s

/-- Goal test of the concrete task (task_properties.is_goal_state). -/
def is_goal_state (task : Task) (s : List Nat) : Bool :=
  task.goals.all (fun g => getVal s g.1 == g.2)

/-- A flaw records the index of the solution entry and the variable that
caused the abstract plan to fail, as in struct Flaw of the source. -/
structure Flaw where
  solution_index : Nat
  var : Nat
deriving DecidableEq

/-- One entry of the collection, mirroring AbstractSolutionData: pattern,
PDB size, wildcard plan (steps of abstract operator ids), the translation
from abstract to concrete operator ids, the solved flag and the
solvability flag. The constructor of AbstractSolutionData is external to
the source file, so plan, size and translation are left abstract here. -/
structure AbstractSolutionData where
  pattern : List Nat
  pdbSize : Int
  plan : List (List Nat)
  translate : Nat → Nat
  solved : Bool
  solutionExists : Bool

/-- The mutable member state of class Cegar: remaining goal variables,
global blacklist, the entry vector (tombstoned slots are none), the
variable to entry-index lookup, the summed collection size and the
concrete solution marker. -/
structure CegarState where
  remaining_goals : List Nat
  global_blacklist : List Nat
  solutions : List (Option AbstractSolutionData)
  solution_lookup : List (Nat × Nat)
  collection_size : Int
  concrete_solution_index : Int

/-- The configuration options consulted by the refinement operations. -/
structure Config where
  max_pdb_size : Int
  max_collection_size : Int
  ignore_goal_violations : Bool

/-- Initial collection seeding mode, as in the source enum. -/
inductive InitialCollectionType
  | GIVEN_GOAL
  | RANDOM_GOAL
  | ALL_GOALS
deriving DecidableEq

/-- The two fatal exits of the source: utils.exit_with SEARCH_UNSOLVABLE
and SEARCH_INPUT_ERROR. -/
inductive CegarError
  | unsolvable
  | inputError
deriving DecidableEq

/-- Lookup in the variable-to-entry map (std.unordered_map.find). -/
def lookupGet : List (Nat × Nat) → Nat → Option Nat
  | [], _ => none
  | p :: ps, k => if p.1 == k then some p.2 else lookupGet ps k

/-- Update of the variable-to-entry map (operator bracket assignment on
std.unordered_map): replace the binding if present, append otherwise. -/
def lookupSet : List (Nat × Nat) → Nat → Nat → List (Nat × Nat)
  | [], k, v => [(k, v)]
  | p :: ps, k, v => if p.1 == k then (k, v) :: ps else p :: lookupSet ps k v

/-- Insertion into the global blacklist (std.unordered_set.insert). -/
def blInsert (bl : List Nat) (v : Nat) : List Nat :=
  if bl.contains v then bl else bl ++ [v]

/-- The blacklist fall-through of Cegar.handle_flaw: insert the variable
into the global blacklist and change nothing else. -/
def blacklist_var (st : CegarState) (v : Nat) : CegarState :=
  { st with global_blacklist := blInsert st.global_blacklist v }

/-- PDB size of the entry at an index, zero for a tombstoned slot. -/
def sol_pdb_size (st : CegarState) (i : Nat) : Int :=
  match st.solutions.getD i none with
  | some s => s.pdbSize
  | none => 0

/-- Modelled from the spec: utils.is_product_within_limit of utils/math
(not under src) performs an overflow-checked comparison of a product
against a limit; mathematically it decides a * b ≤ limit. -/
def is_product_within_limit (a b limit : Int) : Bool :=
  decide (a * b ≤ limit)

/-- Cegar.can_merge_patterns. -/
def can_merge_patterns (cfg : Config) (st : CegarState) (i j : Nat) : Bool :=
  let p1 := sol_pdb_size st i
  let p2 := sol_pdb_size st j
  if !(is_product_within_limit p1 p2 cfg.max_pdb_size) then
    false
  else
    decide (st.collection_size + (p1 * p2 - p1 - p2) ≤ cfg.max_collection_size)

/-- Cegar.can_add_variable_to_pattern. -/
def can_add_variable_to_pattern (task : Task) (cfg : Config) (st : CegarState)
    (index var : Nat) : Bool :=
  let p := sol_pdb_size st index
  let d : Int := task.domains.getD var 0
  if !(is_product_within_limit p d cfg.max_pdb_size) then
    false
  else
    decide (st.collection_size + (p * d - p) ≤ cfg.max_collection_size)

/-- Cegar.update_goals: erase the first occurrence of the added variable
from remaining_goals if present. -/
def update_goals (st : CegarState) (v : Nat) : CegarState :=
  { st with remaining_goals := st.remaining_goals.erase v }

/-- Cegar.add_pattern_for_var: construct a new entry for the singleton
pattern, append it, point the lookup of the variable at the new index and
add the PDB size to the collection size. The function does not touch
remaining_goals. -/
def add_pattern_for_var (solver : List Nat → AbstractSolutionData)
    (st : CegarState) (v : Nat) : CegarState :=
  let newSol := solver [v]
  { st with
    solutions := st.solutions ++ [some newSol],
    solution_lookup := lookupSet st.solution_lookup v st.solutions.length,
    collection_size := st.collection_size + newSol.pdbSize }

/-- Insertion into a sorted list, used to model std.sort on patterns. -/
def insSorted (x : Nat) : List Nat → List Nat
  | [] => [x]
  | y :: ys => if x ≤ y then x :: y :: ys else y :: insSorted x ys

/-- Sorting a pattern ascending (std.sort). -/
def sortList (l : List Nat) : List Nat := l.foldr insSorted []

/-- Cegar.merge_patterns: repoint the lookup of every variable of the
second pattern, build the sorted union, construct the merged entry via the
abstract solver, adjust the collection size and tombstone the second slot. -/
def merge_patterns (solver : List Nat → AbstractSolutionData)
    (st : CegarState) (i j : Nat) : CegarState :=
  match st.solutions.getD i none, st.solutions.getD j none with
  | some sol1, some sol2 =>
    let lookup2 := sol2.pattern.foldl (fun m v => lookupSet m v i) st.solution_lookup
    let newPattern := sortList (sol1.pattern ++ sol2.pattern)
    let merged := solver newPattern
    { st with
      solution_lookup := lookup2,
      solutions := (st.solutions.set i (some merged)).set j none,
      collection_size :=
        st.collection_size - sol1.pdbSize - sol2.pdbSize + merged.pdbSize }
  | _, _ => st

/-- Cegar.add_variable_to_pattern: build the sorted extended pattern,
construct the new entry, adjust the collection size, point the lookup of
the variable at the index, update remaining_goals and install the entry. -/
def add_variable_to_pattern (solver : List Nat → AbstractSolutionData)
    (st : CegarState) (index var : Nat) : CegarState :=
  match st.solutions.getD index none with
  | some sol =>
    let newPattern := sortList (sol.pattern ++ [var])
    let newSol := solver newPattern
    let st1 := { st with
      collection_size := st.collection_size - sol.pdbSize + newSol.pdbSize,
      solution_lookup := lookupSet st.solution_lookup var index }
    let st2 := update_goals st1 var
    { st2 with solutions := st2.solutions.set index (some newSol) }
  | none => st

/-- Cegar.handle_flaw: if the flawed variable is in the lookup, merge the
two entries when the size check allows it; if it is new to the collection,
extend the flawed pattern when the size check allows it; in every other
case insert the variable into the global blacklist. -/
def handle_flaw (task : Task) (solver : List Nat → AbstractSolutionData)
    (cfg : Config) (st : CegarState) (f : Flaw) : CegarState :=
  match lookupGet st.solution_lookup f.var with
  | some other_index =>
    if can_merge_patterns cfg st f.solution_index other_index then
      merge_patterns solver st f.solution_index other_index
    else
      blacklist_var st f.var
  | none =>
    if can_add_variable_to_pattern task cfg st f.solution_index f.var then
      add_variable_to_pattern solver st f.solution_index f.var
    else
      blacklist_var st f.var

/-- Cegar.refine: pick the flaw at the index drawn by the injected RNG and
handle it. The RNG draw is modelled as the parameter r. -/
def refine (task : Task) (solver : List Nat → AbstractSolutionData)
    (cfg : Config) (st : CegarState) (flaws : List Flaw) (r : Nat) : CegarState :=
  handle_flaw task solver cfg st (flaws.getD r ⟨0, 0⟩)

/-- Translation of an abstract operator id of an entry to the concrete
operator it denotes (get_concrete_op_id_for_abs_op_id followed by the
operator lookup on the task proxy). -/
def concrete_op (task : Task) (sol : AbstractSolutionData) (absOp : Nat) : Operator :=
  task.operators.getD (sol.translate absOp) ⟨[], []⟩

/-- The violated non-blacklisted precondition variables of an operator in
a state, in precondition order: the inner precondition loop of
Cegar.apply_wildcard_plan. Blacklisted variables are skipped entirely. -/
def violated_precondition_vars (bl : List Nat) (s : List Nat) (op : Operator) : List Nat :=
  (op.preconditions.filter
    (fun p => !(bl.contains p.1) && !(getVal s p.1 == p.2))).map (fun p => p.1)

/-- The loop over the equivalent operators of one plan step in
Cegar.apply_wildcard_plan: try each operator in order, appending a flaw
for every violated non-blacklisted precondition; at the first operator
with no such violation, clear the whole flaw list and return the
successor state; if none applies, return the accumulated flaws and no
state. -/
def try_step (task : Task) (sol : AbstractSolutionData) (bl : List Nat)
    (k : Nat) (s : List Nat) :
    List Nat → List Flaw → List Flaw × Option (List Nat)
  | [], flaws => (flaws, none)
  | absOp :: rest, flaws =>
    let op := concrete_op task sol absOp
    let viol := violated_precondition_vars bl s op
    if viol.isEmpty then
      ([], some (apply_op s op))
    else
      try_step task sol bl k s rest (flaws ++ viol.map (fun v => Flaw.mk k v))

/-- The outer plan loop of Cegar.apply_wildcard_plan: execute the steps in
order, threading the state and the flaw list; stop at the first step whose
equivalent operators are all inapplicable. The third component records
whether every step was applied. -/
def exec_plan (task : Task) (sol : AbstractSolutionData) (bl : List Nat) (k : Nat) :
    List Nat → List (List Nat) → List Flaw → List Flaw × List Nat × Bool
  | s, [], flaws => (flaws, s, true)
  | s, step :: rest, flaws =>
    match try_step task sol bl k s step flaws with
    | (flaws1, some s1) => exec_plan task sol bl k s1 rest flaws1
    | (flaws1, none) => (flaws1, s, false)

/-- The goal-violation collection loop of Cegar.apply_wildcard_plan: emit
a flaw for every goal fact whose variable has the wrong value, is not
blacklisted and is still contained in remaining_goals. -/
def collect_goal_flaws (bl : List Nat) (rg : List Nat) (k : Nat) (s : List Nat) :
    List (Nat × Nat) → List Flaw
  | [] => []
  | g :: rest =>
    if !(getVal s g.1 == g.2) && !(bl.contains g.1) && rg.contains g.1 then
      Flaw.mk k g.1 :: collect_goal_flaws bl rg k s rest
    else
      collect_goal_flaws bl rg k s rest

/-- AbstractSolutionData.mark_as_solved on the entry at an index. -/
def mark_solved (st : CegarState) (k : Nat) : CegarState :=
  let entry :=
    match st.solutions.getD k none with
    | some s => some { s with solved := true }
    | none => none
  { st with solutions := st.solutions.set k entry }

/-- Cegar.apply_wildcard_plan: execute the wildcard plan of the entry at
index k from the given state; afterwards the branches on an empty flaw
list, the goal test and the blacklist decide between recording the
concrete solution, marking the entry solved, raising goal-violation flaws
and returning the precondition flaws. -/
def apply_wildcard_plan (task : Task) (cfg : Config) (st : CegarState)
    (k : Nat) (init : List Nat) : List Flaw × CegarState :=
  match st.solutions.getD k none with
  | none => ([], st)
  | some sol =>
    let r := exec_plan task sol st.global_blacklist k init sol.plan []
    let flaws := r.1
    let current := r.2.1
    if flaws.isEmpty then
      if is_goal_state task current then
        if st.global_blacklist.isEmpty then
          ([], { st with concrete_solution_index := (k : Int) })
        else
          ([], mark_solved st k)
      else
        if cfg.ignore_goal_violations then
          ([], mark_solved st k)
        else
          (collect_goal_flaws st.global_blacklist st.remaining_goals k current task.goals, st)
    else
      (flaws, st)

/-- The loop body of Cegar.get_flaws over the entry indices: skip
tombstoned and solved entries, exit with SEARCH_UNSOLVABLE when an
entry has no abstract solution, otherwise project its plan; return
immediately with an empty flaw list once the concrete solution index is
set, else accumulate the flaws. -/
def get_flaws_aux (task : Task) (cfg : Config) (init : List Nat) :
    List Nat → CegarState → List Flaw → Except CegarError (List Flaw × CegarState)
  | [], st, acc => Except.ok (acc, st)
  | i :: rest, st, acc =>
    match st.solutions.getD i none with
    | none => get_flaws_aux task cfg init rest st acc
    | some sol =>
      if sol.solved then
        get_flaws_aux task cfg init rest st acc
      else if sol.solutionExists then
        let r := apply_wildcard_plan task cfg st i init
        if r.2.concrete_solution_index ≠ -1 then
          Except.ok ([], r.2)
        else
          get_flaws_aux task cfg init rest r.2 (acc ++ r.1)
      else
        Except.error CegarError.unsolvable

/-- Cegar.get_flaws: iterate the entries in index order starting from the
concrete initial state of the task. -/
def get_flaws (task : Task) (cfg : Config) (st : CegarState) :
    Except CegarError (List Flaw × CegarState) :=
  get_flaws_aux task cfg task.initState (List.range st.solutions.length) st []

/-- The validation prefix of Cegar.generate: the out-of-range check and
the goal-variable check are both gated on given_goal being different from
minus one; the initial collection type is in scope but not consulted. -/
def driver_validate (task : Task) (initial : InitialCollectionType)
    (given_goal : Int) : Except CegarError Unit :=
  if given_goal ≠ -1 ∧ (task.numVars : Int) ≤ given_goal then
    Except.error CegarError.inputError
  else if given_goal ≠ -1 ∧ task.goals.all (fun g => !((g.1 : Int) == given_goal)) then
    Except.error CegarError.inputError
  else
    match initial with
    | _ => Except.ok ()

/-- Remaining goals are untouched by add_pattern_for_var. -/
theorem add_pattern_for_var_remaining_goals
    (solver : List Nat → AbstractSolutionData) (st : CegarState) (v : Nat) :
    (add_pattern_for_var solver st v).remaining_goals = st.remaining_goals := rfl

/-- The ALL_GOALS branch of Cegar.generate_trivial_solution_collection:
pop the last remaining goal and create a singleton pattern for it until
remaining_goals is empty. -/
def seed_all_goals (solver : List Nat → AbstractSolutionData) (st : CegarState) :
    CegarState :=
  match h : st.remaining_goals with
  | [] => st
  | _ :: _ =>
    seed_all_goals solver
      (add_pattern_for_var solver
        { st with remaining_goals := st.remaining_goals.dropLast }
        (st.remaining_goals.getLast (by simp [h])))
termination_by st.remaining_goals.length
decreasing_by
  simp [add_pattern_for_var, h]

/-- Cegar.generate_trivial_solution_collection: seed the initial
collection according to the initial collection type. -/
def generate_trivial_solution_collection (solver : List Nat → AbstractSolutionData)
    (initial : InitialCollectionType) (given_goal : Int) (st : CegarState) :
    CegarState :=
  match initial with
  | InitialCollectionType.GIVEN_GOAL =>
    add_pattern_for_var solver (update_goals st given_goal.toNat) given_goal.toNat
  | InitialCollectionType.RANDOM_GOAL =>
    match st.remaining_goals.getLast? with
    | some v =>
      add_pattern_for_var solver
        { st with remaining_goals := st.remaining_goals.dropLast } v
    | none => st
  | InitialCollectionType.ALL_GOALS => seed_all_goals solver st

/-- The first operator of a plan step (in iteration order) that has no
violated non-blacklisted precondition in the given state, if any. Used to
state the step semantics. -/
def first_applicable_op (task : Task) (sol : AbstractSolutionData) (bl : List Nat)
    (s : List Nat) : List Nat → Option Operator
  | [] => none
  | absOp :: rest =>
    let op := concrete_op task sol absOp
    if (violated_precondition_vars bl s op).isEmpty then
      some op
    else
      first_applicable_op task sol bl s rest

/-- The flaws collected over the operators of a step that are tried before
any applicable one is found, in collection order. When no operator of the
step applies, this is the concatenation over the whole step. -/
def step_collected_flaws (task : Task) (sol : AbstractSolutionData) (bl : List Nat)
    (k : Nat) (s : List Nat) : List Nat → List Flaw
  | [] => []
  | absOp :: rest =>
    let op := concrete_op task sol absOp
    let viol := violated_precondition_vars bl s op
    if viol.isEmpty then
      []
    else
      viol.map (fun v => Flaw.mk k v) ++ step_collected_flaws task sol bl k s rest

/-- A variable is in a live pattern when some non-tombstoned entry
contains it. -/
def varInLivePattern (st : CegarState) (v : Nat) : Bool :=
  st.solutions.any
    (fun o => match o with
      | some sol => sol.pattern.contains v
      | none => false)

/-- Whether an Except value is a success. -/
def exceptIsOk : Except CegarError (List Flaw × CegarState) → Bool
  | Except.ok _ => true
  | Except.error _ => false

/-- A fixed abstract solver used for concrete witness states: the PDB size
is two, the plan is empty and the translation is the identity. -/
def exSolver : List Nat → AbstractSolutionData :=
  fun p => ⟨p, 2, [], fun a => a, false, true⟩

/-- A one-variable task whose initial state already satisfies its goal. -/
def exTask0 : Task := ⟨1, [2], [(0, 0)], [], [0]⟩

/-- Default configuration for witnesses: generous limits, goal violations
not ignored. -/
def exCfg : Config := ⟨1000000, 1000000, false⟩

/-- The inner loop over the equivalent operators of a step is
characterized by the first applicable operator: if one exists the flaw
list is cleared and the successor returned, otherwise the flaws collected
over all tried operators are appended. -/
theorem try_step_characterization (task : Task) (sol : AbstractSolutionData)
    (bl : List Nat) (k : Nat) (s : List Nat) (ops : List Nat) :
    ∀ flaws, try_step task sol bl k s ops flaws =
      match first_applicable_op task sol bl s ops with
      | some op => ([], some (apply_op s op))
      | none => (flaws ++ step_collected_flaws task sol bl k s ops, none) := by
  induction ops with
  | nil =>
    intro flaws
    simp [try_step, first_applicable_op, step_collected_flaws]
  | cons a rest ih =>
    intro flaws
    simp only [try_step, first_applicable_op, step_collected_flaws]
    cases h : (violated_precondition_vars bl s (concrete_op task sol a)).isEmpty with
    | true => simp [h]
    | false =>
      simp only [h, Bool.false_eq_true, if_false, ih]
      cases first_applicable_op task sol bl s rest with
      | some op => simp
      | none => simp [List.append_assoc]

/-- C1: for every entry and every step of its abstract plan, plan
projection tries the operators of the step in order in the current
concrete state; if some operator has no violated non-blacklisted
precondition, the first such operator in iteration order is applied and
all precondition flaws accumulated for this step are discarded, and
execution proceeds with the remaining steps; if no operator of the step
is applicable, the flaws collected over the tried operators are appended
in collection order and plan execution aborts at that step. -/
theorem plan_step_projection (task : Task) (sol : AbstractSolutionData)
    (bl : List Nat) (k : Nat) (s : List Nat) (step : List Nat)
    (rest : List (List Nat)) (flaws : List Flaw) :
    exec_plan task sol bl k s (step :: rest) flaws =
      match first_applicable_op task sol bl s step with
      | some op => exec_plan task sol bl k (apply_op s op) rest []
      | none => (flaws ++ step_collected_flaws task sol bl k s step, s, false) := by
  simp only [exec_plan, try_step_characterization]
  cases first_applicable_op task sol bl s step <;> rfl

/-- C8: the size feasibility predicates compute exactly the bounds of the
specification; the products are exact because the collection-size bound is
only evaluated after the overflow-checked product comparison against
max_pdb_size has succeeded. -/
theorem size_feasibility_predicates (task : Task) (cfg : Config)
    (st : CegarState) (i j v : Nat) :
    (can_add_variable_to_pattern task cfg st i v = true ↔
      sol_pdb_size st i * (task.domains.getD v 0 : Int) ≤ cfg.max_pdb_size ∧
      st.collection_size + sol_pdb_size st i * ((task.domains.getD v 0 : Int) - 1)
        ≤ cfg.max_collection_size) ∧
    (can_merge_patterns cfg st i j = true ↔
      sol_pdb_size st i * sol_pdb_size st j ≤ cfg.max_pdb_size ∧
      st.collection_size + sol_pdb_size st i * sol_pdb_size st j
        - sol_pdb_size st i - sol_pdb_size st j ≤ cfg.max_collection_size) := by
  constructor
  · simp only [can_add_variable_to_pattern, is_product_within_limit]
    generalize (task.domains.getD v 0 : Int) = d
    generalize sol_pdb_size st i = p
    by_cases h : p * d ≤ cfg.max_pdb_size
    · have hd : p * (d - 1) = p * d - p := by ring
      simp [h, hd]
    · simp [h]
  · simp only [can_merge_patterns, is_product_within_limit]
    generalize sol_pdb_size st i = p
    generalize sol_pdb_size st j = q
    by_cases h : p * q ≤ cfg.max_pdb_size
    · have hd : st.collection_size + (p * q - p - q)
          = st.collection_size + p * q - p - q := by
        ring
      simp [h, hd]
    · simp [h]

/-- Looking up a key right after setting it yields the set value. -/
theorem lookupGet_lookupSet_self (m : List (Nat × Nat)) (k v : Nat) :
    lookupGet (lookupSet m k v) k = some v := by
  induction m with
  | nil => simp [lookupSet, lookupGet]
  | cons p ps ih =>
    simp only [lookupSet]
    cases h : (p.1 == k) with
    | true => simp [lookupGet]
    | false => simp [lookupGet, h, ih]

/-- C9 counterexample: add_pattern_for_var does not remove the variable
from remaining_goals; on a state whose remaining_goals contain the
variable, the variable is still contained afterwards. -/
def exStGoals : CegarState := ⟨[3], [], [], [], 0, -1⟩

/-- The claim that add_pattern_for_var removes the variable from
remaining_goals fails: variable three is still in remaining_goals after
add_pattern_for_var on a state that contains it. -/
theorem add_pattern_keeps_goal_cex :
    exStGoals.remaining_goals.contains 3 = true ∧
    (add_pattern_for_var exSolver exStGoals 3).remaining_goals.contains 3 = true := by
  decide

/-- C9 amended: add_pattern_for_var creates a new entry for the singleton
pattern of the variable, appends it to the entry list, points the lookup
of the variable at the new index and adds the PDB size of the new entry to
the collection size; remaining_goals and the blacklist are left unchanged
(their adjustment is performed by the callers). -/
theorem add_pattern_for_var_effect (solver : List Nat → AbstractSolutionData)
    (st : CegarState) (v : Nat) :
    (add_pattern_for_var solver st v).solutions = st.solutions ++ [some (solver [v])] ∧
    lookupGet (add_pattern_for_var solver st v).solution_lookup v
      = some st.solutions.length ∧
    (add_pattern_for_var solver st v).collection_size
      = st.collection_size + (solver [v]).pdbSize ∧
    (add_pattern_for_var solver st v).remaining_goals = st.remaining_goals ∧
    (add_pattern_for_var solver st v).global_blacklist = st.global_blacklist := by
  refine ⟨rfl, ?_, rfl, rfl, rfl⟩
  exact lookupGet_lookupSet_self st.solution_lookup v st.solutions.length

/-- C2: the refiner handles the flaw drawn by the injected RNG (modelled
by the index r into the flaw list) and performs exactly one of three
mutations: when the flawed variable lies in a live pattern it merges the
two entries if can_merge permits; when it lies in no live pattern it
extends the flawed entry if can_extend permits; in every remaining case
it inserts the variable into the global blacklist and changes no other
component of the state. The hypothesis hcons links the lookup table with
live-pattern membership of the flawed variable. -/
theorem refine_single_mutation (task : Task) (solver : List Nat → AbstractSolutionData)
    (cfg : Config) (st : CegarState) (flaws : List Flaw) (r : Nat) (f : Flaw)
    (_hr : r < flaws.length) (hf : flaws.getD r ⟨0, 0⟩ = f)
    (hcons : (lookupGet st.solution_lookup f.var).isSome = varInLivePattern st f.var) :
    (varInLivePattern st f.var = true →
      ∃ m, lookupGet st.solution_lookup f.var = some m ∧
        ((can_merge_patterns cfg st f.solution_index m = true ∧
          refine task solver cfg st flaws r = merge_patterns solver st f.solution_index m) ∨
         (can_merge_patterns cfg st f.solution_index m = false ∧
          refine task solver cfg st flaws r = blacklist_var st f.var))) ∧
    (varInLivePattern st f.var = false →
      ((can_add_variable_to_pattern task cfg st f.solution_index f.var = true ∧
        refine task solver cfg st flaws r
          = add_variable_to_pattern solver st f.solution_index f.var) ∨
       (can_add_variable_to_pattern task cfg st f.solution_index f.var = false ∧
        refine task solver cfg st flaws r = blacklist_var st f.var))) ∧
    (blacklist_var st f.var).solutions = st.solutions ∧
    (blacklist_var st f.var).solution_lookup = st.solution_lookup ∧
    (blacklist_var st f.var).remaining_goals = st.remaining_goals ∧
    (blacklist_var st f.var).collection_size = st.collection_size ∧
    (blacklist_var st f.var).concrete_solution_index = st.concrete_solution_index := by
  have hrf : refine task solver cfg st flaws r = handle_flaw task solver cfg st f := by
    rw [refine, hf]
  refine ⟨?_, ?_, rfl, rfl, rfl, rfl, rfl⟩
  · intro hlive
    cases hl : lookupGet st.solution_lookup f.var with
    | none => rw [hl, hlive] at hcons; simp at hcons
    | some m =>
      refine ⟨m, rfl, ?_⟩
      by_cases hcm : can_merge_patterns cfg st f.solution_index m = true
      · exact Or.inl ⟨hcm, by rw [hrf]; simp only [handle_flaw, hl]; simp [hcm]⟩
      · refine Or.inr ⟨by simpa using hcm, ?_⟩
        rw [hrf]; simp only [handle_flaw, hl]; simp [hcm]
  · intro hdead
    cases hl : lookupGet st.solution_lookup f.var with
    | some m => rw [hl, hdead] at hcons; simp at hcons
    | none =>
      by_cases hca : can_add_variable_to_pattern task cfg st f.solution_index f.var = true
      · exact Or.inl ⟨hca, by rw [hrf]; simp only [handle_flaw, hl]; simp [hca]⟩
      · refine Or.inr ⟨by simpa using hca, ?_⟩
        rw [hrf]; simp only [handle_flaw, hl]; simp [hca]

/-- A two-entry collection state: patterns for variable zero and variable
one, PDB size two each. -/
def exStTwo : CegarState :=
  ⟨[], [], [some (exSolver [0]), some (exSolver [1])], [(0, 0), (1, 1)], 4, -1⟩

/-- Witness for C2 at a concrete state: the flawed variable one lies in
the live pattern of entry one and the two entries are merged. -/
theorem refine_single_mutation_witness :
    (varInLivePattern exStTwo 1 = true →
      ∃ m, lookupGet exStTwo.solution_lookup 1 = some m ∧
        ((can_merge_patterns exCfg exStTwo 0 m = true ∧
          refine exTask0 exSolver exCfg exStTwo [⟨0, 1⟩] 0 = merge_patterns exSolver exStTwo 0 m) ∨
         (can_merge_patterns exCfg exStTwo 0 m = false ∧
          refine exTask0 exSolver exCfg exStTwo [⟨0, 1⟩] 0 = blacklist_var exStTwo 1))) ∧
    (varInLivePattern exStTwo 1 = false →
      ((can_add_variable_to_pattern exTask0 exCfg exStTwo 0 1 = true ∧
        refine exTask0 exSolver exCfg exStTwo [⟨0, 1⟩] 0
          = add_variable_to_pattern exSolver exStTwo 0 1) ∨
       (can_add_variable_to_pattern exTask0 exCfg exStTwo 0 1 = false ∧
        refine exTask0 exSolver exCfg exStTwo [⟨0, 1⟩] 0 = blacklist_var exStTwo 1))) ∧
    (blacklist_var exStTwo 1).solutions = exStTwo.solutions ∧
    (blacklist_var exStTwo 1).solution_lookup = exStTwo.solution_lookup ∧
    (blacklist_var exStTwo 1).remaining_goals = exStTwo.remaining_goals ∧
    (blacklist_var exStTwo 1).collection_size = exStTwo.collection_size ∧
    (blacklist_var exStTwo 1).concrete_solution_index = exStTwo.concrete_solution_index :=
  refine_single_mutation exTask0 exSolver exCfg exStTwo [⟨0, 1⟩] 0 ⟨0, 1⟩
    (by decide) (by decide) (by decide)

/-- C3: when the abstract plan of an entry executes to completion with no
remaining precondition flaws and reaches a concrete goal state, then with
an empty blacklist the concrete solution index is set to the entry and the
returned flaw list is empty, and with a non-empty blacklist the entry is
merely marked solved (no further check involving blacklisted variables)
and the returned flaw list is empty. -/
theorem goal_state_plan_outcome (task : Task) (cfg : Config) (st : CegarState)
    (k : Nat) (init : List Nat) (sol : AbstractSolutionData) (s2 : List Nat)
    (hsol : st.solutions.getD k none = some sol)
    (hexec : exec_plan task sol st.global_blacklist k init sol.plan [] = ([], s2, true))
    (hgoal : is_goal_state task s2 = true) :
    (st.global_blacklist.isEmpty = true →
      apply_wildcard_plan task cfg st k init
        = ([], { st with concrete_solution_index := (k : Int) })) ∧
    (st.global_blacklist.isEmpty = false →
      apply_wildcard_plan task cfg st k init = ([], mark_solved st k)) := by
  constructor <;> intro hb <;>
    (simp only [apply_wildcard_plan]; rw [hsol]; simp only [hexec]; simp [hgoal, hb])

/-- A one-entry state with empty blacklist whose entry has the empty plan. -/
def exStOne : CegarState := ⟨[], [], [some (exSolver [0])], [(0, 0)], 2, -1⟩

/-- The same one-entry state with a non-empty blacklist. -/
def exStOneB : CegarState := ⟨[], [5], [some (exSolver [0])], [(0, 0)], 2, -1⟩

/-- Witness for C3: on the trivial task the empty plan reaches the goal;
with empty blacklist the concrete solution index is recorded, with a
non-empty blacklist the entry is marked solved. -/
theorem goal_state_plan_outcome_witness :
    apply_wildcard_plan exTask0 exCfg exStOne 0 [0]
      = ([], { exStOne with concrete_solution_index := ((0 : Nat) : Int) }) ∧
    apply_wildcard_plan exTask0 exCfg exStOneB 0 [0] = ([], mark_solved exStOneB 0) :=
  ⟨(goal_state_plan_outcome exTask0 exCfg exStOne 0 [0] (exSolver [0]) [0]
      rfl rfl rfl).1 rfl,
   (goal_state_plan_outcome exTask0 exCfg exStOneB 0 [0] (exSolver [0]) [0]
      rfl rfl rfl).2 rfl⟩

/-- The goal-violation collection loop equals a filter of the goal list by
violated value, non-blacklisted variable and remaining-goal membership. -/
theorem collect_goal_flaws_eq_filter (bl rg : List Nat) (k : Nat) (s : List Nat) :
    ∀ gl : List (Nat × Nat),
      collect_goal_flaws bl rg k s gl =
        (gl.filter (fun g => !(getVal s g.1 == g.2) && !(bl.contains g.1)
            && rg.contains g.1)).map (fun g => Flaw.mk k g.1) := by
  intro gl
  induction gl with
  | nil => rfl
  | cons g rest ih =>
    simp only [collect_goal_flaws, List.filter_cons]
    cases h : (!(getVal s g.1 == g.2) && !(bl.contains g.1) && rg.contains g.1) with
    | true => simp [h, ih]
    | false => simp [h, ih]

/-- C4: when the abstract plan of an entry executes to completion, the
reached state is not a concrete goal state and goal violations are not
ignored, the returned flaw list holds exactly one flaw per violated,
non-blacklisted goal variable still present in remaining_goals, in goal
order, and the collection state is unchanged, so the entry is not marked
solved even when that list is empty. -/
theorem goal_violation_flaw_list (task : Task) (cfg : Config) (st : CegarState)
    (k : Nat) (init : List Nat) (sol : AbstractSolutionData) (s2 : List Nat)
    (higv : cfg.ignore_goal_violations = false)
    (hsol : st.solutions.getD k none = some sol)
    (hexec : exec_plan task sol st.global_blacklist k init sol.plan [] = ([], s2, true))
    (hnotgoal : is_goal_state task s2 = false) :
    apply_wildcard_plan task cfg st k init =
      ((task.goals.filter (fun g => !(getVal s2 g.1 == g.2)
          && !(st.global_blacklist.contains g.1)
          && st.remaining_goals.contains g.1)).map (fun g => Flaw.mk k g.1), st) := by
  simp only [apply_wildcard_plan]
  rw [hsol]
  simp only [hexec]
  simp [hnotgoal, higv, collect_goal_flaws_eq_filter]

/-- A one-entry state that still has goal variable zero in
remaining_goals. -/
def exStC4 : CegarState := ⟨[0], [], [some (exSolver [0])], [(0, 0)], 2, -1⟩

/-- Witness for C4: from state one the empty plan stays in a non-goal
state, producing exactly the goal-violation flaw on variable zero and
leaving the state unchanged. -/
theorem goal_violation_flaw_list_witness :
    apply_wildcard_plan exTask0 exCfg exStC4 0 [1] = ([Flaw.mk 0 0], exStC4) := by
  rw [goal_violation_flaw_list exTask0 exCfg exStC4 0 [1] (exSolver [0]) [1]
    rfl rfl rfl rfl]
  rfl

/-- A configuration whose per-PDB limit of three makes every merge and
extension of PDB size four infeasible. -/
def exCfgSmall : Config := ⟨3, 1000000, false⟩

/-- C5 counterexample: on a state with two live singleton entries and a
per-PDB limit that forbids their merge, handling the flaw on entry zero
with variable one inserts variable one into the global blacklist although
variable one lies in the live pattern of entry one, both before and after
the insertion. -/
theorem blacklist_live_overlap_cex :
    varInLivePattern exStTwo 1 = true ∧
    (handle_flaw exTask0 exSolver exCfgSmall exStTwo ⟨0, 1⟩).global_blacklist.contains 1
      = true ∧
    varInLivePattern (handle_flaw exTask0 exSolver exCfgSmall exStTwo ⟨0, 1⟩) 1 = true := by
  decide

/-- C5 amended: only the extend fall-through preserves the claimed
invariant: when the flawed variable is not in the lookup (equivalently,
under the consistency hypothesis, in no live pattern) and the extension is
infeasible, the variable is blacklisted and is indeed in no live pattern
at that moment; the merge fall-through instead blacklists a variable that
lies in a live pattern. -/
theorem blacklist_extend_fallthrough_no_live (task : Task)
    (solver : List Nat → AbstractSolutionData) (cfg : Config) (st : CegarState)
    (f : Flaw)
    (hcons : (lookupGet st.solution_lookup f.var).isSome = varInLivePattern st f.var)
    (hnone : lookupGet st.solution_lookup f.var = none)
    (hcant : can_add_variable_to_pattern task cfg st f.solution_index f.var = false) :
    handle_flaw task solver cfg st f = blacklist_var st f.var ∧
    varInLivePattern st f.var = false := by
  constructor
  · simp only [handle_flaw, hnone]
    simp [hcant]
  · rw [← hcons, hnone]
    rfl

/-- A two-variable task used for the extend fall-through witness. -/
def exTask2 : Task := ⟨2, [2, 2], [(0, 0)], [], [0, 0]⟩

/-- Witness for the amended C5: variable one is new to the collection,
extension is infeasible under the small limit, and the blacklist
fall-through fires with variable one in no live pattern. -/
theorem blacklist_extend_fallthrough_no_live_witness :
    handle_flaw exTask2 exSolver exCfgSmall exStOne ⟨0, 1⟩ = blacklist_var exStOne 1 ∧
    varInLivePattern exStOne 1 = false :=
  blacklist_extend_fallthrough_no_live exTask2 exSolver exCfgSmall exStOne ⟨0, 1⟩
    (by decide) (by decide) (by decide)

/-- An entry whose abstract task is unsolvable. -/
def exSolBad : AbstractSolutionData := ⟨[1], 2, [], fun a => a, false, false⟩

/-- A state whose first entry solves the concrete task and whose second
entry is live, unsolved and has no abstract solution. -/
def exStC6 : CegarState :=
  ⟨[], [], [some (exSolver [0]), some exSolBad], [(0, 0), (1, 1)], 4, -1⟩

/-- C6 counterexample: the second entry is live, unsolved and reports no
abstract solution, yet flaw extraction returns successfully because the
first entry sets the concrete solution index and extraction returns
before reaching the second entry. -/
theorem unsolvable_entry_skipped_cex :
    (match exStC6.solutions.getD 1 none with
      | some s => !s.solved && !s.solutionExists
      | none => false) = true ∧
    exceptIsOk (get_flaws exTask0 exCfg exStC6) = true := by
  decide

/-- Plan projection of one entry leaves every other slot of the entry
vector untouched: the state is either unchanged, only the concrete
solution index is set, or only the projected slot is overwritten by
mark_as_solved. -/
theorem apply_wildcard_plan_other_slot (task : Task) (cfg : Config)
    (st : CegarState) (j : Nat) (init : List Nat) (i : Nat) (hij : i ≠ j) :
    (apply_wildcard_plan task cfg st j init).2.solutions.getD i none
      = st.solutions.getD i none := by
  simp only [apply_wildcard_plan]
  cases hs : st.solutions.getD j none with
  | none => rfl
  | some sol =>
    dsimp only
    split_ifs <;>
      simp [mark_solved, List.getD, List.getElem?_set_ne (Ne.symm hij)]

/-- Along any list of slot indices containing a live unsolved entry with
no abstract solution, the extraction loop either exits with
SEARCH_UNSOLVABLE or returns early with an empty flaw list because the
projection of some other live unsolved entry set the concrete solution
index. -/
theorem get_flaws_aux_unsolvable_or_preempted (task : Task) (cfg : Config)
    (init : List Nat) :
    ∀ is st acc i sol,
      st.solutions.getD i none = some sol →
      sol.solved = false →
      sol.solutionExists = false →
      i ∈ is →
      (get_flaws_aux task cfg init is st acc = Except.error CegarError.unsolvable ∨
       ∃ st2, get_flaws_aux task cfg init is st acc = Except.ok ([], st2) ∧
         st2.concrete_solution_index ≠ -1) := by
  intro is
  induction is with
  | nil =>
    intro st acc i sol _ _ _ hmem
    simp at hmem
  | cons j rest ih =>
    intro st acc i sol hsol hsolved hne hmem
    simp only [get_flaws_aux]
    cases hj : st.solutions.getD j none with
    | none =>
      dsimp only
      have hij : i ≠ j := by
        intro he
        rw [he, hj] at hsol
        exact Option.noConfusion hsol
      have hmem2 : i ∈ rest := by
        cases List.mem_cons.mp hmem with
        | inl h => exact absurd h hij
        | inr h => exact h
      exact ih st acc i sol hsol hsolved hne hmem2
    | some solj =>
      dsimp only
      cases hb : solj.solved with
      | true =>
        simp only [if_true]
        have hij : i ≠ j := by
          intro he
          rw [he, hj] at hsol
          rw [Option.some.inj hsol] at hb
          rw [hsolved] at hb
          exact Bool.noConfusion hb
        have hmem2 : i ∈ rest := by
          cases List.mem_cons.mp hmem with
          | inl h => exact absurd h hij
          | inr h => exact h
        exact ih st acc i sol hsol hsolved hne hmem2
      | false =>
        simp only [Bool.false_eq_true, if_false]
        cases he : solj.solutionExists with
        | false =>
          simp only [Bool.false_eq_true, if_false]
          exact Or.inl (by trivial)
        | true =>
          simp only [if_true]
          have hij : i ≠ j := by
            intro hx
            rw [hx, hj] at hsol
            rw [Option.some.inj hsol] at he
            rw [hne] at he
            exact Bool.noConfusion he
          have hmem2 : i ∈ rest := by
            cases List.mem_cons.mp hmem with
            | inl h => exact absurd h hij
            | inr h => exact h
          by_cases hc :
              (apply_wildcard_plan task cfg st j init).2.concrete_solution_index ≠ -1
          · rw [if_pos hc]
            exact Or.inr ⟨(apply_wildcard_plan task cfg st j init).2, rfl, hc⟩
          · rw [if_neg hc]
            have hsol2 : (apply_wildcard_plan task cfg st j init).2.solutions.getD i none
                = some sol := by
              rw [apply_wildcard_plan_other_slot task cfg st j init i hij]
              exact hsol
            exact ih (apply_wildcard_plan task cfg st j init).2
              (acc ++ (apply_wildcard_plan task cfg st j init).1) i sol
              hsol2 hsolved hne hmem2

/-- C6 amended: whenever any live unsolved entry reports solution_exists
false, flaw extraction never returns a flaw list: it terminates fatally
with SEARCH_UNSOLVABLE, except that the projection of another live
unsolved entry encountered during the same extraction may set the
concrete solution index first, in which case extraction returns
immediately with an empty flaw list and the marker set. -/
theorem unsolvable_entry_fatal_or_preempted (task : Task) (cfg : Config)
    (st : CegarState) (i : Nat) (sol : AbstractSolutionData)
    (hsol : st.solutions.getD i none = some sol)
    (hsolved : sol.solved = false)
    (hne : sol.solutionExists = false)
    (hi : i < st.solutions.length) :
    get_flaws task cfg st = Except.error CegarError.unsolvable ∨
    ∃ st2, get_flaws task cfg st = Except.ok ([], st2) ∧
      st2.concrete_solution_index ≠ -1 :=
  get_flaws_aux_unsolvable_or_preempted task cfg task.initState
    (List.range st.solutions.length) st [] i sol hsol hsolved hne
    (List.mem_range.mpr hi)

/-- A state whose only entry is live, unsolved and unsolvable. -/
def exStBadOnly : CegarState := ⟨[], [], [some exSolBad], [(1, 0)], 2, -1⟩

/-- Witness for the amended C6 at two concrete states: one where the
unsolvable entry is reached and extraction exits fatally, and one where a
preceding entry sets the concrete solution index first. -/
theorem unsolvable_entry_fatal_or_preempted_witness :
    (get_flaws exTask0 exCfg exStBadOnly = Except.error CegarError.unsolvable ∨
     ∃ st2, get_flaws exTask0 exCfg exStBadOnly = Except.ok ([], st2) ∧
       st2.concrete_solution_index ≠ -1) ∧
    (get_flaws exTask0 exCfg exStC6 = Except.error CegarError.unsolvable ∨
     ∃ st2, get_flaws exTask0 exCfg exStC6 = Except.ok ([], st2) ∧
       st2.concrete_solution_index ≠ -1) :=
  ⟨unsolvable_entry_fatal_or_preempted exTask0 exCfg exStBadOnly 0 exSolBad
      rfl rfl rfl (by decide),
   unsolvable_entry_fatal_or_preempted exTask0 exCfg exStC6 1 exSolBad
      rfl rfl rfl (by decide)⟩

/-- C7 counterexample: with the initial collection type ALL_GOALS (not
GIVEN_GOAL) and given_goal five, which is out of range of the one-variable
task, the driver raises the input error, contradicting the claim that no
input error is raised when the initial type is not GIVEN_GOAL. -/
theorem input_error_without_given_goal_cex :
    driver_validate exTask0 InitialCollectionType.ALL_GOALS 5
      = Except.error CegarError.inputError ∧
    InitialCollectionType.ALL_GOALS ≠ InitialCollectionType.GIVEN_GOAL := by
  refine ⟨rfl, by decide⟩

/-- C7 amended: the driver raises the input error exactly when given_goal
differs from minus one and is out of range or not a goal variable,
independently of the initial collection type. -/
theorem driver_validate_spec (task : Task) (initial : InitialCollectionType) (g : Int) :
    driver_validate task initial g = Except.error CegarError.inputError ↔
      (g ≠ -1 ∧ ((task.numVars : Int) ≤ g ∨
        task.goals.all (fun p => !((p.1 : Int) == g)) = true)) := by
  simp only [driver_validate]
  by_cases h1 : g ≠ -1 ∧ (task.numVars : Int) ≤ g
  · rw [if_pos h1]
    exact ⟨fun _ => ⟨h1.1, Or.inl h1.2⟩, fun _ => rfl⟩
  · rw [if_neg h1]
    by_cases h2 : g ≠ -1 ∧ task.goals.all (fun p => !((p.1 : Int) == g)) = true
    · rw [if_pos h2]
      exact ⟨fun _ => ⟨h2.1, Or.inr h2.2⟩, fun _ => rfl⟩
    · rw [if_neg h2]
      constructor
      · intro h
        cases initial <;> simp at h
      · intro h
        rcases h with ⟨hne, hor⟩
        cases hor with
        | inl ha => exact absurd ⟨hne, ha⟩ h1
        | inr hb => exact absurd ⟨hne, hb⟩ h2

/-- Seeding with ALL_GOALS pops every remaining goal. -/
theorem seed_all_goals_remaining (solver : List Nat → AbstractSolutionData)
    (st : CegarState) : (seed_all_goals solver st).remaining_goals = [] := by
  rw [seed_all_goals]
  split
  · next h => exact h
  · next a as h => exact seed_all_goals_remaining solver _
termination_by st.remaining_goals.length
decreasing_by
  rename_i heq
  simp [add_pattern_for_var, heq]

/-- Plan projection never touches remaining_goals. -/
theorem apply_wildcard_plan_remaining (task : Task) (cfg : Config)
    (st : CegarState) (k : Nat) (init : List Nat) :
    (apply_wildcard_plan task cfg st k init).2.remaining_goals = st.remaining_goals := by
  simp only [apply_wildcard_plan]
  cases hsol : st.solutions.getD k none with
  | none => rfl
  | some sol =>
    dsimp only
    split_ifs <;> rfl

/-- Flaw extraction never changes remaining_goals of the returned state. -/
theorem get_flaws_aux_remaining (task : Task) (cfg : Config) (init : List Nat) :
    ∀ is st acc fl st2,
      get_flaws_aux task cfg init is st acc = Except.ok (fl, st2) →
      st2.remaining_goals = st.remaining_goals := by
  intro is
  induction is with
  | nil =>
    intro st acc fl st2 h
    simp only [get_flaws_aux, Except.ok.injEq, Prod.mk.injEq] at h
    rw [← h.2]
  | cons i rest ih =>
    intro st acc fl st2 h
    simp only [get_flaws_aux] at h
    cases hsol : st.solutions.getD i none with
    | none =>
      rw [hsol] at h
      dsimp only at h
      exact ih st acc fl st2 h
    | some sol =>
      rw [hsol] at h
      dsimp only at h
      cases hb : sol.solved with
      | true =>
        rw [hb] at h
        simp only [if_true] at h
        exact ih st acc fl st2 h
      | false =>
        rw [hb] at h
        simp only [Bool.false_eq_true, if_false] at h
        cases he : sol.solutionExists with
        | false =>
          rw [he] at h
          simp at h
        | true =>
          rw [he] at h
          simp only [if_true] at h
          by_cases hc :
              (apply_wildcard_plan task cfg st i init).2.concrete_solution_index ≠ -1
          · rw [if_pos hc] at h
            simp only [Except.ok.injEq, Prod.mk.injEq] at h
            rw [← h.2]
            exact apply_wildcard_plan_remaining task cfg st i init
          · rw [if_neg hc] at h
            have hstep := ih _ _ _ _ h
            rw [hstep]
            exact apply_wildcard_plan_remaining task cfg st i init

/-- Handling a flaw on a state with no remaining goals leaves
remaining_goals empty: merging and blacklisting do not touch it and
extension only erases from it. -/
theorem handle_flaw_remaining_empty (task : Task)
    (solver : List Nat → AbstractSolutionData) (cfg : Config) (st : CegarState)
    (f : Flaw) (h : st.remaining_goals = []) :
    (handle_flaw task solver cfg st f).remaining_goals = [] := by
  simp only [handle_flaw]
  cases hl : lookupGet st.solution_lookup f.var with
  | some m =>
    dsimp only
    split_ifs with hc
    · simp only [merge_patterns]
      cases h1 : st.solutions.getD f.solution_index none <;>
        cases h2 : st.solutions.getD m none <;> exact h
    · exact h
  | none =>
    dsimp only
    split_ifs with hc
    · simp only [add_variable_to_pattern]
      cases h1 : st.solutions.getD f.solution_index none
      · exact h
      · dsimp only
        simp [update_goals, h]
    · exact h

/-- The goal-violation loop emits nothing when remaining_goals is empty. -/
theorem collect_goal_flaws_nil_rg (bl : List Nat) (k : Nat) (s : List Nat) :
    ∀ gl, collect_goal_flaws bl [] k s gl = [] := by
  intro gl
  induction gl with
  | nil => rfl
  | cons g rest ih => simp [collect_goal_flaws, ih]

/-- With no remaining goals, every flaw returned by plan projection comes
from the precondition phase. -/
theorem apply_wildcard_plan_flaw_source (task : Task) (cfg : Config)
    (st : CegarState) (k : Nat) (init : List Nat) (sol : AbstractSolutionData)
    (hrg : st.remaining_goals = [])
    (hsol : st.solutions.getD k none = some sol) :
    (apply_wildcard_plan task cfg st k init).1
      = (exec_plan task sol st.global_blacklist k init sol.plan []).1 := by
  simp only [apply_wildcard_plan]
  rw [hsol]
  dsimp only
  rcases hE : exec_plan task sol st.global_blacklist k init sol.plan [] with ⟨f, s2, b⟩
  cases f with
  | nil =>
    dsimp only
    split_ifs <;> try rfl
    rw [hrg, collect_goal_flaws_nil_rg]
  | cons a as => rfl

/-- When the plan completes in a non-goal state and goal violations are
not ignored, plan projection leaves the collection state unchanged, so the
entry is not marked solved through the goal-violation path. -/
theorem apply_wildcard_plan_nongoal_state_unchanged (task : Task) (cfg : Config)
    (st : CegarState) (k : Nat) (init : List Nat) (sol : AbstractSolutionData)
    (s2 : List Nat)
    (higv : cfg.ignore_goal_violations = false)
    (hsol : st.solutions.getD k none = some sol)
    (hexec : exec_plan task sol st.global_blacklist k init sol.plan [] = ([], s2, true))
    (hnotgoal : is_goal_state task s2 = false) :
    (apply_wildcard_plan task cfg st k init).2 = st := by
  simp only [apply_wildcard_plan]
  rw [hsol]
  dsimp only
  rw [hexec]
  simp [hnotgoal, higv]

/-- C10: with the ALL_GOALS seeding every remaining goal is consumed
immediately; no operation of the loop ever adds to remaining_goals
(refinement keeps it empty, plan projection and flaw extraction preserve
it); with remaining_goals empty every flaw produced by plan projection is
a precondition flaw (the goal-violation filter rejects every candidate),
and an entry reaching a non-goal state is not marked solved through the
goal-violation path. -/
theorem all_goals_precondition_flaws_only (task : Task) (cfg : Config)
    (solver : List Nat → AbstractSolutionData) :
    (∀ g st0, (generate_trivial_solution_collection solver
        InitialCollectionType.ALL_GOALS g st0).remaining_goals = []) ∧
    (∀ st flaws r, st.remaining_goals = [] →
      (refine task solver cfg st flaws r).remaining_goals = []) ∧
    (∀ st k init, (apply_wildcard_plan task cfg st k init).2.remaining_goals
      = st.remaining_goals) ∧
    (∀ st fl st2, get_flaws task cfg st = Except.ok (fl, st2) →
      st2.remaining_goals = st.remaining_goals) ∧
    (∀ st k init sol, st.remaining_goals = [] →
      st.solutions.getD k none = some sol →
      (apply_wildcard_plan task cfg st k init).1
        = (exec_plan task sol st.global_blacklist k init sol.plan []).1) ∧
    (∀ st k init sol s2, cfg.ignore_goal_violations = false →
      st.solutions.getD k none = some sol →
      exec_plan task sol st.global_blacklist k init sol.plan [] = ([], s2, true) →
      is_goal_state task s2 = false →
      (apply_wildcard_plan task cfg st k init).2 = st) := by
  refine ⟨?_, ?_, ?_, ?_, ?_, ?_⟩
  · intro g st0
    exact seed_all_goals_remaining solver st0
  · intro st flaws r h
    exact handle_flaw_remaining_empty task solver cfg st _ h
  · intro st k init
    exact apply_wildcard_plan_remaining task cfg st k init
  · intro st fl st2 h
    exact get_flaws_aux_remaining task cfg task.initState _ st [] fl st2 h
  · intro st k init sol hrg hsol
    exact apply_wildcard_plan_flaw_source task cfg st k init sol hrg hsol
  · intro st k init sol s2 higv hsol hexec hnotgoal
    exact apply_wildcard_plan_nongoal_state_unchanged task cfg st k init sol s2
      higv hsol hexec hnotgoal

/-- Witness for C10 at concrete inputs: each conjunct instantiated on the
trivial task, with the internal hypotheses discharged by evaluation. -/
theorem all_goals_precondition_flaws_only_witness :
    (generate_trivial_solution_collection exSolver InitialCollectionType.ALL_GOALS
      (-1) exStGoals).remaining_goals = [] ∧
    (refine exTask0 exSolver exCfg exStOne [⟨0, 0⟩] 0).remaining_goals = [] ∧
    (apply_wildcard_plan exTask0 exCfg exStOne 0 [0]).2.remaining_goals
      = exStOne.remaining_goals ∧
    ({ exStOne with concrete_solution_index := (0 : Int) } : CegarState).remaining_goals
      = exStOne.remaining_goals ∧
    (apply_wildcard_plan exTask0 exCfg exStOne 0 [0]).1
      = (exec_plan exTask0 (exSolver [0]) exStOne.global_blacklist 0 [0]
          (exSolver [0]).plan []).1 ∧
    (apply_wildcard_plan exTask0 exCfg exStOne 0 [1]).2 = exStOne := by
  have h := all_goals_precondition_flaws_only exTask0 exCfg exSolver
  refine ⟨h.1 (-1) exStGoals, h.2.1 exStOne [⟨0, 0⟩] 0 rfl, h.2.2.1 exStOne 0 [0], ?_, ?_, ?_⟩
  · exact h.2.2.2.1 exStOne [] { exStOne with concrete_solution_index := (0 : Int) } rfl
  · exact h.2.2.2.2.1 exStOne 0 [0] (exSolver [0]) rfl rfl
  · exact h.2.2.2.2.2 exStOne 0 [1] (exSolver [0]) [1] rfl rfl rfl rfl

end Cegar
